import Mathlib

/-!
Verification of the Notebook Execution Engine of the MCP notebook server
(sources under src/mcpContainer).  The Python code is shallowly embedded:

* Python runtime values that can appear in the execution context, in cell
  metadata and in cell outputs are modelled by the inductive type PVal.
  Arbitrary non-JSON Python objects are modelled by the constructor pobj,
  which carries the name of their type and an optional string rendering
  (none models an object whose str() raises).
* CPython facilities used by the code (compile/exec/eval, str(), json.dumps,
  the filesystem) are external collaborators of the repository.  The
  compile/exec/eval triple is abstracted as an Interp structure; a small
  concrete interpreter MiniPy instantiates it for the concrete programs
  appearing in the claims.  str() is modelled by pyStr, json.dumps
  serializability by serializable, and the filesystem by an association
  list from paths to parsed JSON trees (writing a file stores the parsed
  form of the JSON text the code would have written).
* Python str.strip / str.split / str.join / str.startswith and friends are
  re-implemented on List Char by structural recursion so that all concrete
  computations reduce inside the kernel.
-/

/-- Model of the Python values that flow through the notebook state:
strings, ints, bools, None, lists, dicts, and opaque non-JSON objects.
A pobj carries its type name and the result of str() on it (none models
an object whose str() raises).  Python floats are not needed by any claim
and are omitted. -/
inductive PVal where
  | pstr (s : String)
  | pint (n : Int)
  | pbool (b : Bool)
  | pnone
  | pobj (typeName : String) (strRender : Option String)
  | plist (xs : List PVal)
  | pdict (kvs : List (String × PVal))

/-- The execution context: a Python dict mapping variable names to values. -/
def Ctx : Type := List (String × PVal)

/-- Python whitespace characters recognised by str.strip(). -/
def isPySpace (c : Char) : Bool :=
  c = ' ' || c = '\t' || c = '\n' || c = '\r' || c = '\x0b' || c = '\x0c'

/-- Drop leading Python whitespace from a character list. -/
def dropSpaceL (cs : List Char) : List Char := cs.dropWhile isPySpace

/-- Model of Python str.strip(). -/
def pyStrip (s : String) : String :=
  ⟨(dropSpaceL ((dropSpaceL s.data.reverse).reverse))⟩

/-- Split a character list at every occurrence of the separator character,
keeping empty segments, exactly like Python str.split(sep). -/
def splitOnChar (sep : Char) : List Char → List (List Char)
  | [] => [[]]
  | c :: rest =>
    let r := splitOnChar sep rest
    if c = sep then [] :: r
    else
      match r with
      | h :: t => (c :: h) :: t
      | [] => [[c]]

/-- Model of Python s.split(chr): total, returns at least one segment. -/
def pySplitChar (sep : Char) (s : String) : List String :=
  (splitOnChar sep s.data).map String.mk

/-- Model of Python s.split(newline), as used for source lines. -/
def pySplitNl (s : String) : List String := pySplitChar '\n' s

/-- Concatenate character lists with a newline between consecutive pieces. -/
def joinNlChars : List (List Char) → List Char
  | [] => []
  | [x] => x
  | x :: y :: rest => x ++ '\n' :: joinNlChars (y :: rest)

/-- Model of Python newline.join(xs). -/
def pyJoinNl (xs : List String) : String := ⟨joinNlChars (xs.map String.data)⟩

/-- Is the first list a leading segment of the second one. -/
def listLeads : List Char → List Char → Bool
  | [], _ => true
  | _ :: _, [] => false
  | p :: ps, c :: cs => p = c && listLeads ps cs

/-- Model of Python s.startswith(p). -/
def pyStartsWith (s p : String) : Bool := listLeads p.data s.data

/-- Model of Python s.endswith(p). -/
def pyEndsWith (s p : String) : Bool := listLeads p.data.reverse s.data.reverse

/-- Does the needle occur as a contiguous substring of the haystack. -/
def occursIn (needle : List Char) : List Char → Bool
  | [] => needle.isEmpty
  | c :: rest => listLeads needle (c :: rest) || occursIn needle rest

/-- Model of the Python test (needle in haystack) on strings. -/
def pyContains (hay needle : String) : Bool := occursIn needle.data hay.data

/-- Does the string contain the given character. -/
def strHasChar (c : Char) (s : String) : Bool := s.data.any (· = c)

/-- Decimal rendering of an integer, matching Python str(int). -/
def pyIntRepr (n : Int) : String :=
  match n with
  | Int.ofNat m => Nat.repr m
  | Int.negSucc m => "-" ++ Nat.repr (m + 1)

/-- The Python type name of a modelled value (type(v).__name__). -/
def pyTypeName : PVal → String
  | .pstr _ => "str"
  | .pint _ => "int"
  | .pbool _ => "bool"
  | .pnone => "NoneType"
  | .pobj t _ => t
  | .plist _ => "list"
  | .pdict _ => "dict"

/-- Model of CPython str(v): total on primitives, given by the stored
rendering on opaque objects (none models a raising str()).  Containers are
rendered atomically; no claim inspects the rendering text of a container,
only whether rendering succeeds, and the container renderings modelled
here always succeed. -/
def pyStr : PVal → Option String
  | .pstr s => some s
  | .pint n => some (pyIntRepr n)
  | .pbool b => some (if b then "True" else "False")
  | .pnone => some "None"
  | .pobj _ r => r
  | .plist _ => some "<list>"
  | .pdict _ => some "<dict>"

mutual
/-- Model of the success of json.dumps on a value: true exactly when the
value is built from JSON-serializable constructors all the way down. -/
def serializable : PVal → Bool
  | .pstr _ => true
  | .pint _ => true
  | .pbool _ => true
  | .pnone => true
  | .pobj _ _ => false
  | .plist xs => serializableList xs
  | .pdict kvs => serializableDict kvs
def serializableList : List PVal → Bool
  | [] => true
  | v :: vs => serializable v && serializableList vs
def serializableDict : List (String × PVal) → Bool
  | [] => true
  | kv :: kvs => serializable kv.2 && serializableDict kvs
end

/-- Lookup in a Python dict modelled as an association list. -/
def pdictGet (key : String) : List (String × PVal) → Option PVal
  | [] => none
  | (k, v) :: rest => if k = key then some v else pdictGet key rest

/-- Model of dict.get(key, d). -/
def pdictGetD (kvs : List (String × PVal)) (key : String) (d : PVal) : PVal :=
  (pdictGet key kvs).getD d

/-- Dict assignment d[k] = v: replace the first binding of k in place,
or append a new binding, preserving Python dict insertion order. -/
def ctxSet : Ctx → String → PVal → Ctx
  | [], k, v => [(k, v)]
  | (k1, v1) :: rest, k, v =>
    if k1 = k then (k, v) :: rest else (k1, v1) :: ctxSet rest k v

/-- Lookup of a variable in the execution context. -/
def ctxGet : Ctx → String → Option PVal
  | [], _ => none
  | (k1, v1) :: rest, k => if k1 = k then some v1 else ctxGet rest k

/-- Result record of run_cell, mirroring the dict it returns. -/
structure CellResult where
  stdout : String
  result : Option PVal
  error : Option String

/-- The CPython facilities run_cell relies on, abstracted: eval-mode
compilation of a single line (true when it compiles as an expression),
evaluation of such a line, and execution of a statement block.  exec and
eval return the mutated context, the text printed to stdout, and either a
formatted exception text or (for eval) the computed value.  On an
exception the returned context holds the bindings mutated before the
exception was raised, as in Python. -/
structure Interp where
  compilesAsExpr : String → Bool
  evalExpr : String → Ctx → Ctx × String × Except String PVal
  execStmts : String → Ctx → Ctx × String × Option String

/-- Embedding of run_cell from src/mcpContainer/utils/cellUtils.py: strip
the source, return immediately when empty; otherwise try to compile the
last line as an expression; if that succeeds exec the preceding lines
(when there are any) and eval the last line, capturing its value as the
result; otherwise exec the whole stripped source.  Exceptions become the
error field; stdout is everything printed before returning. -/
def run_cell (I : Interp) (code : String) (context : Ctx) : Ctx × CellResult :=
  let stripped := pyStrip code
  if stripped = "" then (context, ⟨"", none, none⟩)
  else
    let lines := pySplitNl stripped
    if I.compilesAsExpr (lines.getLastD "") then
      let (ctx1, out1, err1) :=
        if lines.length > 1 then I.execStmts (pyJoinNl lines.dropLast) context
        else (context, "", none)
      match err1 with
      | some e => (ctx1, ⟨out1, none, some e⟩)
      | none =>
        match I.evalExpr (lines.getLastD "") ctx1 with
        | (ctx2, out2, Except.ok v) => (ctx2, ⟨out1 ++ out2, some v, none⟩)
        | (ctx2, out2, Except.error e) => (ctx2, ⟨out1 ++ out2, none, some e⟩)
    else
      match I.execStmts stripped context with
      | (ctx1, out1, err1) => (ctx1, ⟨out1, none, err1⟩)

/-- Modelled from the spec, section 4.3 (CellExecutor): the REPL rule as the
specification words it.  If the last line compiles as an expression, all
preceding lines are executed as statements against the context (with no
case split on how many there are) and then the last line is evaluated as
an expression, its value captured as the result; otherwise the entire
source is executed as statements and the result stays null.  This is the
spec-side definition that run_cell is compared against. -/
def runCellSpec (I : Interp) (code : String) (context : Ctx) : Ctx × CellResult :=
  let stripped := pyStrip code
  if stripped = "" then (context, ⟨"", none, none⟩)
  else
    let lines := pySplitNl stripped
    if I.compilesAsExpr (lines.getLastD "") then
      match I.execStmts (pyJoinNl lines.dropLast) context with
      | (ctx1, out1, some e) => (ctx1, ⟨out1, none, some e⟩)
      | (ctx1, out1, none) =>
        match I.evalExpr (lines.getLastD "") ctx1 with
        | (ctx2, out2, Except.ok v) => (ctx2, ⟨out1 ++ out2, some v, none⟩)
        | (ctx2, out2, Except.error e) => (ctx2, ⟨out1 ++ out2, none, some e⟩)
    else
      match I.execStmts stripped context with
      | (ctx1, out1, err1) => (ctx1, ⟨out1, none, err1⟩)

/-- Is the string a nonempty run of decimal digits. -/
def isIntLit (s : String) : Bool := !s.data.isEmpty && s.data.all Char.isDigit

/-- Numeric value of a digit run. -/
def intLitVal (s : String) : Int :=
  Int.ofNat (s.data.foldl (fun acc c => acc * 10 + c.toNat - 48) 0)

/-- Is the string a Python identifier (letters, digits, underscore, not
starting with a digit). -/
def isIdent (s : String) : Bool :=
  match s.data with
  | [] => false
  | c :: rest =>
    (c.isAlpha || c = '_') && rest.all (fun d => d.isAlphanum || d = '_')

/-- Expressions of the MiniPy fragment: integer literals, variables,
addition, and division. -/
inductive MExpr where
  | lit (n : Int)
  | var (x : String)
  | add (a b : MExpr)
  | div (a b : MExpr)

/-- Parse an atomic MiniPy expression (literal or variable). -/
def parseAtom (s : String) : Option MExpr :=
  let t := pyStrip s
  if isIntLit t then some (.lit (intLitVal t))
  else if isIdent t then some (.var t)
  else none

/-- Parse a MiniPy expression.  A line containing an equals sign is not an
expression (compiling it in eval mode raises SyntaxError in Python). -/
def parseMExpr (s : String) : Option MExpr :=
  let t := pyStrip s
  if strHasChar '=' t then none
  else
    match splitOnChar '+' t.data with
    | [a, b] =>
      match parseAtom ⟨a⟩, parseAtom ⟨b⟩ with
      | some x, some y => some (.add x y)
      | _, _ => none
    | [_] =>
      match splitOnChar '/' t.data with
      | [a, b] =>
        match parseAtom ⟨a⟩, parseAtom ⟨b⟩ with
        | some x, some y => some (.div x y)
        | _, _ => none
      | [_] => parseAtom t
      | _ => none
    | _ => none

/-- MiniPy exception text for an unbound variable. -/
def nameErrText (x : String) : String :=
  "Traceback (most recent call last): NameError: name " ++ x ++ " is not defined"

/-- MiniPy exception text for division by zero, mirroring the tail of the
CPython traceback. -/
def zeroDivText : String :=
  "Traceback (most recent call last): ZeroDivisionError: division by zero"

/-- Evaluate a MiniPy expression in a context.  Division by zero raises;
division with a nonzero divisor is exact integer division in this fragment
(no claim exercises a successful division). -/
def evalM (ctx : Ctx) : MExpr → Except String Int
  | .lit n => Except.ok n
  | .var x =>
    match ctxGet ctx x with
    | some (.pint n) => Except.ok n
    | some _ => Except.error "Traceback (most recent call last): TypeError: unsupported operand"
    | none => Except.error (nameErrText x)
  | .add a b =>
    match evalM ctx a with
    | Except.error e => Except.error e
    | Except.ok x =>
      match evalM ctx b with
      | Except.error e => Except.error e
      | Except.ok y => Except.ok (x + y)
  | .div a b =>
    match evalM ctx a with
    | Except.error e => Except.error e
    | Except.ok x =>
      match evalM ctx b with
      | Except.error e => Except.error e
      | Except.ok y => if y = 0 then Except.error zeroDivText else Except.ok (x / y)

/-- MiniPy eval of one source line. -/
def miniEvalExpr (s : String) (ctx : Ctx) : Ctx × String × Except String PVal :=
  match parseMExpr s with
  | none => (ctx, "", Except.error "Traceback (most recent call last): SyntaxError: invalid syntax")
  | some e =>
    match evalM ctx e with
    | Except.ok n => (ctx, "", Except.ok (.pint n))
    | Except.error m => (ctx, "", Except.error m)

/-- Execute one MiniPy statement line: blank lines are skipped, an
assignment binds its target, a bare expression is evaluated and its value
discarded. -/
def miniExecLine (line : String) (ctx : Ctx) : Except String Ctx :=
  let t := pyStrip line
  if t = "" then Except.ok ctx
  else
    match splitOnChar '=' t.data with
    | [l, r] =>
      let lhs := pyStrip ⟨l⟩
      if isIdent lhs then
        match parseMExpr ⟨r⟩ with
        | none => Except.error "Traceback (most recent call last): SyntaxError: invalid syntax"
        | some e =>
          match evalM ctx e with
          | Except.ok n => Except.ok (ctxSet ctx lhs (.pint n))
          | Except.error m => Except.error m
      else Except.error "Traceback (most recent call last): SyntaxError: cannot assign"
    | [_] =>
      match parseMExpr t with
      | none => Except.error "Traceback (most recent call last): SyntaxError: invalid syntax"
      | some e =>
        match evalM ctx e with
        | Except.ok _ => Except.ok ctx
        | Except.error m => Except.error m
    | _ => Except.error "Traceback (most recent call last): SyntaxError: invalid syntax"

/-- Execute MiniPy statement lines in order, stopping at the first
exception; bindings made before the exception persist. -/
def miniExecLines : List String → Ctx → Ctx × String × Option String
  | [], ctx => (ctx, "", none)
  | l :: rest, ctx =>
    match miniExecLine l ctx with
    | Except.ok ctx1 => miniExecLines rest ctx1
    | Except.error e => (ctx, "", some e)

/-- MiniPy exec of a statement block. -/
def miniExecStmts (s : String) (ctx : Ctx) : Ctx × String × Option String :=
  miniExecLines (pySplitNl s) ctx

/-- The MiniPy instantiation of the abstract interpreter: a model of the
CPython compile/exec/eval triple on the fragment of Python exercised by
the claims (integer assignments, addition, division, variable reads). -/
def miniPy : Interp :=
  { compilesAsExpr := fun s => (parseMExpr s).isSome
    evalExpr := miniEvalExpr
    execStmts := miniExecStmts }

/-- One notebook cell.  The Python code has two dataclasses (MarkdownCell
and CodeCell) sharing the duck-typed fields used by the tools; they are
embedded as a single record tagged by cell_type, with execution_count and
outputs carrying their dataclass defaults on markdown cells (the tools
read them through getattr with exactly those defaults). -/
structure Cell where
  cell_type : String
  metadata : PVal
  source : String
  execution_count : Option Int
  outputs : List PVal

/-- Constructor of a markdown cell, as the MarkdownCell dataclass builds it. -/
def MarkdownCell (source : String) : Cell :=
  { cell_type := "markdown", metadata := .pdict [], source := source
    execution_count := none, outputs := [] }

/-- Constructor of a code cell, as the CodeCell dataclass builds it. -/
def CodeCell (source : String) (execution_count : Option Int) : Cell :=
  { cell_type := "code", metadata := .pdict [], source := source
    execution_count := execution_count, outputs := [] }

/-- Placeholder cell used for list indexing after a bounds check. -/
def emptyCell : Cell := MarkdownCell ""

/-- The notebook state singleton of NotebookState.py: the cell history, the
shared execution context, and the global execution counter. -/
structure NotebookState where
  history : List Cell
  execution_context : Ctx
  global_execution_count : Int

/-- Embedding of NotebookState.get_next_execution_count: return the current
counter and increment it. -/
def get_next_execution_count (st : NotebookState) : Int × NotebookState :=
  (st.global_execution_count,
   { st with global_execution_count := st.global_execution_count + 1 })

/-- Embedding of NotebookState.reset_execution_context: clear the context,
reset the counter to 1, and clear outputs and execution counts of every
code cell. -/
def reset_execution_context (st : NotebookState) : NotebookState :=
  { st with
    execution_context := []
    global_execution_count := 1
    history := st.history.map (fun c =>
      if c.cell_type = "code" then { c with outputs := [], execution_count := none }
      else c) }

/-- The key filter of get_user_variables: not k.startswith of two
underscores, and k not the literal builtins key (the second test is
subsumed by the first but is kept as the code writes it). -/
def keepKey (k : String) : Bool :=
  !pyStartsWith k "__" && !(k = "__builtins__")

/-- Embedding of NotebookState.get_user_variables: the dict comprehension
keeps the bindings whose key does not start with two underscores (and is
not the literal key of the builtins dict) and renders each kept value with
str.  str can raise on a value; the comprehension then raises, which this
embedding returns as an error value. -/
def get_user_variables : Ctx → Except String (List (String × String))
  | [] => Except.ok []
  | (k, v) :: rest =>
    if keepKey k then
      match pyStr v with
      | some s =>
        match get_user_variables rest with
        | Except.ok m => Except.ok ((k, s) :: m)
        | Except.error e => Except.error e
      | none => Except.error ("TypeError: unprintable value bound to " ++ k)
    else get_user_variables rest

/-- Embedding of serialize_execution_context from cellUtils.py: values of
the primitive isinstance tuple (str, int, float, bool, list, dict) are
kept as they are; every other value is rendered with str, and a rendering
failure falls back to the type-name placeholder.  No key is excluded. -/
def serialize_execution_context : Ctx → List (String × PVal)
  | [] => []
  | (k, v) :: rest =>
    let v1 :=
      match v with
      | .pstr _ | .pint _ | .pbool _ | .plist _ | .pdict _ => v
      | other =>
        match pyStr other with
        | some s => PVal.pstr s
        | none => PVal.pstr ("<" ++ pyTypeName other ++ ">")
    (k, v1) :: serialize_execution_context rest

/-- Does an Except hold a value (the call returned instead of raising). -/
def exceptIsOk {e a : Type} : Except e a → Bool
  | Except.ok _ => true
  | Except.error _ => false

/-- The invalid-index message used by the index-checked tools: it quotes
the cell total and the then-current valid range 0 to len-1. -/
def invalidIndexMsg (st : NotebookState) : String :=
  "Invalid index. History contains " ++ pyIntRepr (st.history.length : Int) ++
    " cells (0-" ++ pyIntRepr ((st.history.length : Int) - 1) ++ ")"

/-- Response record of createMarkdownCell / createCodeCell /
insertMarkdownCell / insertCodeCell. -/
structure CellCreationResponse where
  created : Bool
  index : Int
  message : String

/-- Response record of updateCell. -/
structure CellUpdateResponse where
  updated : Bool
  message : String
  cell_type : String

/-- Response record of deleteCell. -/
structure CellDeleteResponse where
  deleted : Bool
  message : String
  new_total : Int
  deleted_cell_type : String

/-- Response record of getCellContent. -/
structure CellContentResponse where
  found : Bool
  content : String
  cell_type : String
  execution_count : Option Int
  outputs : List PVal

/-- Capitalise the first character, as Python str.capitalize does on the
cell-type words used here. -/
def pyCapitalize (s : String) : String :=
  match s.data with
  | [] => ""
  | c :: rest => ⟨c.toUpper :: rest⟩

/-- Embedding of createMarkdownCell from cell_tools.py. -/
def createMarkdownCell (st : NotebookState) (content : String) :
    NotebookState × CellCreationResponse :=
  if pyStrip content = "" then
    (st, ⟨false, -1, "Content cannot be empty"⟩)
  else
    let st1 := { st with history := st.history ++ [MarkdownCell (pyStrip content)] }
    let idx : Int := (st1.history.length : Int) - 1
    (st1, ⟨true, idx, "Markdown cell created successfully at index " ++ pyIntRepr idx⟩)

/-- Embedding of createCodeCell from cell_tools.py. -/
def createCodeCell (st : NotebookState) (content : String) :
    NotebookState × CellCreationResponse :=
  if pyStrip content = "" then
    (st, ⟨false, -1, "Content cannot be empty"⟩)
  else
    let st1 := { st with history := st.history ++ [CodeCell (pyStrip content) none] }
    let idx : Int := (st1.history.length : Int) - 1
    (st1, ⟨true, idx, "Code cell created successfully at index " ++ pyIntRepr idx⟩)

/-- Insert an element before position n of a list (list.insert of Python). -/
def listInsert {a : Type} (n : Nat) (x : a) : List a → List a
  | [] => [x]
  | y :: ys =>
    match n with
    | 0 => x :: y :: ys
    | m + 1 => y :: listInsert m x ys

/-- Embedding of insertMarkdownCell from cell_tools.py: empty content is
rejected first, then the index must be between 0 and len inclusive. -/
def insertMarkdownCell (st : NotebookState) (content : String) (index : Int) :
    NotebookState × CellCreationResponse :=
  if pyStrip content = "" then
    (st, ⟨false, -1, "Content cannot be empty"⟩)
  else if index < 0 || (st.history.length : Int) < index then
    (st, ⟨false, -1, "Invalid index. Must be between 0 and " ++
      pyIntRepr (st.history.length : Int) ++ " (inclusive)"⟩)
  else
    let st1 := { st with
      history := listInsert index.toNat (MarkdownCell (pyStrip content)) st.history }
    (st1, ⟨true, index, "Markdown cell inserted successfully at index " ++ pyIntRepr index⟩)

/-- Embedding of insertCodeCell from cell_tools.py. -/
def insertCodeCell (st : NotebookState) (content : String) (index : Int) :
    NotebookState × CellCreationResponse :=
  if pyStrip content = "" then
    (st, ⟨false, -1, "Content cannot be empty"⟩)
  else if index < 0 || (st.history.length : Int) < index then
    (st, ⟨false, -1, "Invalid index. Must be between 0 and " ++
      pyIntRepr (st.history.length : Int) ++ " (inclusive)"⟩)
  else
    let st1 := { st with
      history := listInsert index.toNat (CodeCell (pyStrip content) none) st.history }
    (st1, ⟨true, index, "Code cell inserted successfully at index " ++ pyIntRepr index⟩)

/-- Embedding of updateCell from cell_tools.py: the index is validated
first, then the content; the source is replaced by the stripped content
in place, leaving the cell type unchanged. -/
def updateCell (st : NotebookState) (index : Int) (content : String) :
    NotebookState × CellUpdateResponse :=
  if index < 0 || (st.history.length : Int) ≤ index then
    (st, ⟨false, invalidIndexMsg st, ""⟩)
  else if pyStrip content = "" then
    (st, ⟨false, "Content cannot be empty", ""⟩)
  else
    let c := st.history.getD index.toNat emptyCell
    let st1 := { st with
      history := st.history.set index.toNat { c with source := pyStrip content } }
    (st1, ⟨true, "Cell at index " ++ pyIntRepr index ++ " updated successfully",
      c.cell_type⟩)

/-- Embedding of deleteCell from cell_tools.py: an invalid index reports
the valid range and leaves the state untouched; a valid index removes the
cell, shifting the rest left. -/
def deleteCell (st : NotebookState) (index : Int) :
    NotebookState × CellDeleteResponse :=
  if index < 0 || (st.history.length : Int) ≤ index then
    (st, ⟨false, invalidIndexMsg st, (st.history.length : Int), ""⟩)
  else
    let c := st.history.getD index.toNat emptyCell
    let st1 := { st with history := st.history.eraseIdx index.toNat }
    (st1, ⟨true,
      pyCapitalize c.cell_type ++ " cell at index " ++ pyIntRepr index ++
        " deleted successfully",
      (st1.history.length : Int), c.cell_type⟩)

/-- Embedding of getCellContent from cell_tools.py (read-only). -/
def getCellContent (st : NotebookState) (index : Int) : CellContentResponse :=
  if index < 0 || (st.history.length : Int) ≤ index then
    ⟨false, invalidIndexMsg st, "", none, []⟩
  else
    let c := st.history.getD index.toNat emptyCell
    if c.cell_type = "code" then
      ⟨true, c.source, c.cell_type, c.execution_count, c.outputs⟩
    else
      ⟨true, c.source, c.cell_type, none, []⟩

/-- Response record of executeCodeCell. -/
structure ExecuteCodeCellResponse where
  executed : Bool
  stdout : String
  result : Option PVal
  error : Option String
  execution_count : Int
  message : String

/-- One entry of the results list returned by executeAllCells. -/
structure AllCellsResultEntry where
  index : Int
  executed : Bool
  stdout : String
  result : Option PVal
  error : Option String
  execution_count : Int

/-- Response record of executeAllCells. -/
structure ExecuteAllCellsResponse where
  executed : Bool
  total_cells : Int
  executed_cells : Int
  results : List AllCellsResultEntry
  message : String

/-- Response record of restartKernel. -/
structure RestartKernelResponse where
  restarted : Bool
  message : String

/-- The error output record appended for a failed run: the traceback text
split on newlines, exactly as executeCodeCell builds it. -/
def errorOutputs (rr : CellResult) : List PVal :=
  match rr.error with
  | some e =>
    if e = "" then []
    else
      [.pdict [("output_type", .pstr "error"), ("ename", .pstr "ExecutionError"),
        ("evalue", .pstr "Cell execution failed"),
        ("traceback", .plist ((pySplitNl e).map .pstr))]]
  | none => []

/-- The outputs list a run stores on the cell: a stream record when stdout
is nonempty, an execute_result record when a result is present (its text
representation comes from str, which can raise: that case is none and
models the TypeError escaping to the surrounding handler), then the error
record. -/
def buildOutputs (rr : CellResult) (cnt : Int) : Option (List PVal) :=
  let streamOuts : List PVal :=
    if rr.stdout = "" then []
    else [.pdict [("output_type", .pstr "stream"), ("name", .pstr "stdout"),
      ("text", .pstr rr.stdout)]]
  match rr.result with
  | none => some (streamOuts ++ errorOutputs rr)
  | some v =>
    match pyStr v with
    | none => none
    | some s =>
      some (streamOuts ++
        [.pdict [("output_type", .pstr "execute_result"), ("execution_count", .pint cnt),
          ("data", .pdict [("text/plain", .pstr s)])]] ++
        errorOutputs rr)

/-- Is the error field truthy in the Python sense (present and nonempty). -/
def errTruthy (e : Option String) : Bool :=
  match e with
  | some s => !(s = "")
  | none => false

/-- Embedding of executeCodeCell from execution_tools.py, instrumented
with the list of execution counts handed out by
get_next_execution_count during the call (used to state the counter
claims; the un-instrumented tool is the projection executeCodeCell).
An invalid index or a non-code cell is reported without touching the
state; otherwise the cell source runs against the shared context, the
cell receives the next global execution count, and the outputs are stored
on the cell.  When rendering the result value raises, the surrounding
handler turns the call into a failure response: the count was already
consumed and the outputs were not stored. -/
def executeCodeCellT (I : Interp) (st : NotebookState) (index : Int) :
    NotebookState × ExecuteCodeCellResponse × List Int :=
  if index < 0 || (st.history.length : Int) ≤ index then
    (st, ⟨false, "", none, some (invalidIndexMsg st), -1, invalidIndexMsg st⟩, [])
  else
    let cell := st.history.getD index.toNat emptyCell
    if !(cell.cell_type = "code") then
      (st, ⟨false, "", none,
        some ("Cell at index " ++ pyIntRepr index ++ " is not a code cell (it is " ++
          cell.cell_type ++ ")"),
        -1, "Cannot execute " ++ cell.cell_type ++ " cell"⟩, [])
    else
      let (ctx1, rr) := run_cell I cell.source st.execution_context
      let st1 := { st with execution_context := ctx1 }
      let (cnt, st2) := get_next_execution_count st1
      let cellCnt := { cell with execution_count := some cnt }
      let st3 := { st2 with history := st2.history.set index.toNat cellCnt }
      match buildOutputs rr cnt with
      | none =>
        (st3, ⟨false, "", none, some "Failed to execute cell: unprintable result",
          -1, "Failed to execute cell: unprintable result"⟩, [cnt])
      | some outs =>
        let st4 := { st3 with
          history := st3.history.set index.toNat { cellCnt with outputs := outs } }
        (st4, ⟨true, rr.stdout, rr.result, rr.error, cnt,
          if errTruthy rr.error then "Code cell executed with errors"
          else "Code cell at index " ++ pyIntRepr index ++ " executed successfully"⟩,
          [cnt])

/-- The un-instrumented executeCodeCell tool. -/
def executeCodeCell (I : Interp) (st : NotebookState) (index : Int) :
    NotebookState × ExecuteCodeCellResponse :=
  ((executeCodeCellT I st index).1, (executeCodeCellT I st index).2.1)

/-- The loop body of executeAllCells over the positions of the history:
markdown cells are skipped; each code cell runs against the shared
context and receives the next count.  The final flag is false when the
result rendering raised, aborting the loop (the exception reaches the
handler of executeAllCells).  The third component records the counts
handed out, in order. -/
def execAllLoop (I : Interp) :
    List Nat → NotebookState → NotebookState × List AllCellsResultEntry × List Int × Bool
  | [], st => (st, [], [], true)
  | i :: rest, st =>
    let cell := st.history.getD i emptyCell
    if cell.cell_type = "code" then
      let (ctx1, rr) := run_cell I cell.source st.execution_context
      let st1 := { st with execution_context := ctx1 }
      let (cnt, st2) := get_next_execution_count st1
      let cellCnt := { cell with execution_count := some cnt }
      let st3 := { st2 with history := st2.history.set i cellCnt }
      match buildOutputs rr cnt with
      | none => (st3, [], [cnt], false)
      | some outs =>
        let st4 := { st3 with
          history := st3.history.set i { cellCnt with outputs := outs } }
        let (st5, res, counts, ok) := execAllLoop I rest st4
        (st5, ⟨(i : Int), true, rr.stdout, rr.result, rr.error, cnt⟩ :: res,
          cnt :: counts, ok)
    else execAllLoop I rest st

/-- Embedding of executeAllCells from execution_tools.py, instrumented
with the counts handed out: every code cell runs in document order,
continuing past per-cell errors; the aggregate success flag is the
conjunction of the per-cell error-freedom. -/
def executeAllCellsT (I : Interp) (st : NotebookState) :
    NotebookState × ExecuteAllCellsResponse × List Int :=
  let total := st.history.length
  match execAllLoop I (List.range st.history.length) st with
  | (st1, res, counts, ok) =>
    if ok then
      let success := res.all (fun r => !errTruthy r.error)
      (st1, ⟨success, (total : Int), (res.length : Int), res,
        "Executed " ++ pyIntRepr (res.length : Int) ++ " code cells out of " ++
          pyIntRepr (total : Int) ++ " total cells" ++
          (if success then "" else " (some cells had errors)")⟩, counts)
    else
      (st1, ⟨false, (st1.history.length : Int), 0, [],
        "Failed to execute cells: unprintable result"⟩, counts)

/-- The un-instrumented executeAllCells tool. -/
def executeAllCells (I : Interp) (st : NotebookState) :
    NotebookState × ExecuteAllCellsResponse :=
  ((executeAllCellsT I st).1, (executeAllCellsT I st).2.1)

/-- Embedding of restartKernel from execution_tools.py: delegate to
reset_execution_context and report success. -/
def restartKernel (st : NotebookState) : NotebookState × RestartKernelResponse :=
  (reset_execution_context st,
   ⟨true, "Kernel restarted successfully. All variables cleared and execution counts reset."⟩)

/-- The filesystem seen by the persistence tools, modelled as a map from
paths to the parsed JSON tree of the file contents (the code writes the
json.dumps rendering of the tree and reads it back with json.load, which
are mutually inverse on the serializable trees the engine produces). -/
def FileSys : Type := List (String × PVal)

/-- Read a file: the exists check and the open/json.load of the code. -/
def fsRead : FileSys → String → Option PVal
  | [], _ => none
  | (p, v) :: rest, q => if p = q then some v else fsRead rest q

/-- Write a file, replacing any previous contents at the path. -/
def fsWrite : FileSys → String → PVal → FileSys
  | [], q, w => [(q, w)]
  | (p, v) :: rest, q, w =>
    if p = q then (q, w) :: rest else (p, v) :: fsWrite rest q w

/-- Response record of saveNotebook. -/
structure SaveNotebookResponse where
  saved : Bool
  filepath : String
  message : String

/-- Response record of loadNotebook. -/
structure LoadNotebookResponse where
  loaded : Bool
  cells_loaded : Int
  message : String

/-- Encoding of the execution count into the notebook JSON (null when the
cell never ran). -/
def encodeExecCount : Option Int → PVal
  | none => PVal.pnone
  | some n => PVal.pint n

/-- Conversion of one cell to the notebook file format, as saveNotebook
builds it: cell_type, metadata, and the source split into lines (a falsy
empty source becomes the single empty line); code cells additionally
carry execution_count and outputs. -/
def encodeCell (c : Cell) : PVal :=
  .pdict
    ([("cell_type", .pstr c.cell_type), ("metadata", c.metadata),
      ("source", .plist ((if c.source = "" then [""] else pySplitNl c.source).map .pstr))] ++
     (if c.cell_type = "code" then
        [("execution_count", encodeExecCount c.execution_count),
         ("outputs", .plist c.outputs)]
      else []))

/-- The key-value entries of the notebook JSON structure saveNotebook
assembles before serialization: the converted cells, the kernel and
language metadata, the nbformat markers, the snapshotted user variables,
and the counter. -/
def buildNotebookKVs (st : NotebookState) (uv : List (String × String)) :
    List (String × PVal) :=
  [("cells", .plist (st.history.map encodeCell)),
   ("metadata", .pdict
      [("kernelspec", .pdict
          [("display_name", .pstr "Python 3"), ("language", .pstr "python"),
           ("name", .pstr "python3")]),
       ("language_info", .pdict
          [("name", .pstr "python"), ("version", .pstr "3.12.0")])]),
   ("nbformat", .pint 4),
   ("nbformat_minor", .pint 4),
   ("user_variables", .pdict (uv.map (fun kv => (kv.1, PVal.pstr kv.2)))),
   ("global_execution_count", .pint st.global_execution_count)]

/-- The complete notebook JSON structure saveNotebook serializes. -/
def buildNotebookData (st : NotebookState) (uv : List (String × String)) : PVal :=
  .pdict (buildNotebookKVs st uv)

/-- Append the notebook extension when the name lacks it. -/
def ensureIpynb (filename : String) : String :=
  if pyEndsWith filename ".ipynb" then filename else filename ++ ".ipynb"

/-- Embedding of saveNotebook from notebook_tools.py: snapshot the user
variables (a raising snapshot reaches the outer handler), assemble the
notebook structure, test JSON serialization first, and only on success
create the file under the notebooks directory.  A serialization failure
returns a failure response with the filesystem untouched. -/
def saveNotebook (st : NotebookState) (fs : FileSys) (filename : String) :
    SaveNotebookResponse × FileSys :=
  match get_user_variables st.execution_context with
  | Except.error e =>
    (⟨false, "", "Failed to save notebook: " ++ e⟩, fs)
  | Except.ok uv =>
    let notebook_data := buildNotebookData st uv
    if serializable notebook_data then
      let filepath := "/app/notebooks/" ++ ensureIpynb filename
      (⟨true, filepath, "Notebook saved successfully to " ++ filepath⟩,
       fsWrite fs filepath notebook_data)
    else
      (⟨false, "", "Failed to serialize notebook data to JSON"⟩, fs)

/-- The string stored in a loaded source position (the file format always
holds strings there; a non-string would make the join raise, a case the
files produced by this engine never contain). -/
def pvalAsStr : PVal → String
  | .pstr s => s
  | _ => ""

/-- Decoding of the source field on load: a list of lines is joined with
newlines, a plain string is kept. -/
def decodeSource : PVal → String
  | .plist xs => pyJoinNl (xs.map pvalAsStr)
  | .pstr s => s
  | _ => ""

/-- Decoding of the execution_count field on load. -/
def decodeExecCount : Option PVal → Option Int
  | some (.pint n) => some n
  | _ => none

/-- Conversion of one cell record of a notebook file back to a cell, as
loadNotebook does it: markdown and code cells are rebuilt with their
metadata (and, for code, execution_count and outputs); any other cell
type is skipped. -/
def decodeCell (cd : PVal) : Option Cell :=
  match cd with
  | .pdict kvs =>
    let ctype :=
      match pdictGet "cell_type" kvs with
      | some (.pstr t) => t
      | _ => ""
    let src := decodeSource (pdictGetD kvs "source" (.plist []))
    let meta := pdictGetD kvs "metadata" (.pdict [])
    if ctype = "markdown" then
      some { cell_type := "markdown", metadata := meta, source := src
             execution_count := none, outputs := [] }
    else if ctype = "code" then
      some { cell_type := "code", metadata := meta, source := src
             execution_count := decodeExecCount (pdictGet "execution_count" kvs)
             outputs :=
               match pdictGet "outputs" kvs with
               | some (.plist xs) => xs
               | _ => [] }
    else none
  | _ => none

/-- Embedding of loadNotebook from notebook_tools.py: resolve the path (a
bare filename is looked up in the notebooks directory with the extension
appended), require the file to exist, clear the history, restore the
execution context and the counter when the file carries them, and append
every decoded cell, skipping unknown cell types. -/
def loadNotebook (st : NotebookState) (fs : FileSys) (filepath : String) :
    NotebookState × LoadNotebookResponse :=
  let path :=
    if strHasChar '/' filepath then filepath
    else "/app/notebooks/" ++ ensureIpynb filepath
  match fsRead fs path with
  | none => (st, ⟨false, 0, "File not found: " ++ path⟩)
  | some (.pdict nd) =>
    let st1 := { st with history := [] }
    let st2 :=
      match pdictGet "execution_context" nd with
      | some (.pdict kvs) => { st1 with execution_context := kvs }
      | _ => st1
    let st3 :=
      match pdictGet "global_execution_count" nd with
      | some (.pint n) => { st2 with global_execution_count := n }
      | _ => st2
    let cells :=
      match pdictGetD nd "cells" (.plist []) with
      | .plist cs => cs.filterMap decodeCell
      | _ => []
    ({ st3 with history := cells },
     ⟨true, (cells.length : Int),
      "Notebook loaded successfully. " ++ pyIntRepr (cells.length : Int) ++
        " cells loaded from " ++ path⟩)
  | some _ => ({ st with history := [] }, ⟨false, 0, "Failed to load notebook"⟩)

/-! Helper lemmas. -/

/-- Splitting never returns an empty list of segments. -/
theorem splitOnChar_ne_nil (sep : Char) (cs : List Char) : splitOnChar sep cs ≠ [] := by
  cases cs with
  | nil => simp [splitOnChar]
  | cons c rest =>
    simp only [splitOnChar]
    split
    · simp
    · split
      · simp
      · simp

/-- Joining a two-or-more segment list peels off the head character. -/
theorem joinNlChars_cons_cons (c : Char) (h : List Char) (t : List (List Char)) :
    joinNlChars ((c :: h) :: t) = c :: joinNlChars (h :: t) := by
  cases t with
  | nil => rfl
  | cons x t2 => simp [joinNlChars]

/-- Joining the segments of a split restores the original characters. -/
theorem joinNl_splitOnNl (cs : List Char) :
    joinNlChars (splitOnChar '\n' cs) = cs := by
  induction cs with
  | nil => rfl
  | cons c rest ih =>
    rcases hr : splitOnChar '\n' rest with _ | ⟨h, t⟩
    · exact absurd hr (splitOnChar_ne_nil _ _)
    · have ih2 : joinNlChars (h :: t) = rest := by rw [← hr]; exact ih
      by_cases hc : c = '\n'
      · subst hc
        have hs : splitOnChar '\n' ('\n' :: rest) = [] :: h :: t := by
          simp [splitOnChar, hr]
        rw [hs]
        show '\n' :: joinNlChars (h :: t) = '\n' :: rest
        rw [ih2]
      · have hs : splitOnChar '\n' (c :: rest) = (c :: h) :: t := by
          simp [splitOnChar, hr, hc]
        rw [hs, joinNlChars_cons_cons, ih2]

/-- Splitting a string on newlines and joining the lines again restores
the string, matching the Python split and join round trip. -/
theorem pyJoinNl_pySplitNl (s : String) : pyJoinNl (pySplitNl s) = s := by
  show String.mk _ = s
  rw [show s = String.mk s.data from rfl]
  congr 1
  show joinNlChars (((splitOnChar '\n' s.data).map String.mk).map String.data) = s.data
  rw [List.map_map]
  have : (String.data ∘ String.mk) = id := rfl
  rw [this, List.map_id]
  exact joinNl_splitOnNl s.data

/-! Claim C7: restartKernel idempotence and its effect. -/

/-- The cell clearing restartKernel performs on code cells. -/
def restartClear (c : Cell) : Cell :=
  if c.cell_type = "code" then { c with outputs := [], execution_count := none } else c

/-- Claim C7: restartKernel is idempotent, and after it the execution
context is empty, the global execution count is 1, every code cell has a
null execution count and empty outputs, and the history keeps the same
cells (type and source) in the same order, only with execution bookkeeping
cleared. -/
theorem restartKernel_idempotent (st : NotebookState) :
    (restartKernel (restartKernel st).1).1 = (restartKernel st).1
    ∧ (restartKernel st).1.execution_context = []
    ∧ (restartKernel st).1.global_execution_count = 1
    ∧ ((restartKernel st).1.history.all fun c =>
        !(c.cell_type = "code") || (c.execution_count.isNone && c.outputs.isEmpty))
    ∧ (restartKernel st).1.history = st.history.map restartClear
    ∧ ∀ c : Cell, (restartClear c).cell_type = c.cell_type
        ∧ (restartClear c).source = c.source := by
  refine ⟨?_, rfl, rfl, ?_, rfl, ?_⟩
  · show reset_execution_context (reset_execution_context st) = reset_execution_context st
    unfold reset_execution_context
    simp only [List.map_map]
    congr 1
    apply List.map_congr_left
    intro c _
    by_cases h : c.cell_type = "code" <;> simp [Function.comp, h]
  · show (st.history.map _).all _ = true
    rw [List.all_map, List.all_eq_true]
    intro c _
    by_cases h : c.cell_type = "code"
    · simp [Function.comp, h]
    · simp [Function.comp, h]
  · intro c
    unfold restartClear
    by_cases h : c.cell_type = "code"
    · simp [h]
    · simp [h]

/-! Claim C8: deleteCell on an out-of-range index. -/

/-- Claim C8: deleteCell at any out-of-range index returns the state
unchanged (same history and global execution count, in fact the whole
state) and a failure response whose message spells out the then-current
valid index range 0 to len-1. -/
theorem deleteCell_out_of_range (st : NotebookState) (index : Int)
    (h : index < 0 ∨ (st.history.length : Int) ≤ index) :
    deleteCell st index =
      (st, ⟨false,
        "Invalid index. History contains " ++ pyIntRepr (st.history.length : Int) ++
          " cells (0-" ++ pyIntRepr ((st.history.length : Int) - 1) ++ ")",
        (st.history.length : Int), ""⟩) := by
  unfold deleteCell invalidIndexMsg
  rcases h with h | h
  · simp [h]
  · simp [h]

/-- Witness for C8 at a concrete out-of-range call on the empty notebook:
the valid range degenerates to 0 to -1 and the state is returned as is. -/
theorem deleteCell_out_of_range_witness :
    deleteCell ⟨[], [], 1⟩ 0 =
      (⟨[], [], 1⟩, ⟨false, "Invalid index. History contains 0 cells (0--1)", 0, ""⟩) :=
  deleteCell_out_of_range ⟨[], [], 1⟩ 0 (Or.inr (by decide))

/-! Claim C6: a division-by-zero cell. -/

/-- The one-cell notebook used to state the division claim. -/
def divState : NotebookState := ⟨[CodeCell "1/0" none], [], 1⟩

/-- Claim C6: executing a cell whose source is 1/0 yields an error text
containing a division message and a null result, reports rather than
propagates the failure, and still assigns the next global execution count
to the cell (the counter is consumed). -/
theorem divide_by_zero_cell_reports_error :
    (executeCodeCell miniPy divState 0).2.error = some zeroDivText
    ∧ pyContains zeroDivText "division" = true
    ∧ (executeCodeCell miniPy divState 0).2.result = none
    ∧ (executeCodeCell miniPy divState 0).2.executed = true
    ∧ (executeCodeCell miniPy divState 0).2.execution_count = 1
    ∧ ((executeCodeCell miniPy divState 0).1.history.getD 0 emptyCell).execution_count = some 1
    ∧ (executeCodeCell miniPy divState 0).1.global_execution_count = 2 :=
  ⟨rfl, rfl, rfl, rfl, rfl, rfl, rfl⟩

/-! Claim C5: context persistence across two cells. -/

/-- The two-cell notebook of the persistence claim: the first cell binds x
to 2 and ends with the bare expression x + 3, the second cell is the bare
variable x. -/
def persistState : NotebookState :=
  ⟨[CodeCell "x = 2\nx + 3" none, CodeCell "x" none], [], 1⟩

/-- Counterexample to C5 as stated: after the first cell runs, the
variable x is bound to 2, so executing the second cell (source x) yields
the result 2, not the claimed 5.  The claim is false at this input. -/
theorem second_cell_result_is_two_not_five :
    (executeCodeCell miniPy (executeCodeCell miniPy persistState 0).1 1).2.result =
      some (.pint 2)
    ∧ ¬ ((executeCodeCell miniPy (executeCodeCell miniPy persistState 0).1 1).2.result =
      some (.pint 5)) := by
  have h1 : (executeCodeCell miniPy (executeCodeCell miniPy persistState 0).1 1).2.result =
      some (PVal.pint 2) := rfl
  refine ⟨h1, ?_⟩
  rw [h1]
  intro h
  injection h with h2
  injection h2 with h3
  omega

/-- Amended C5: executing the first cell yields result 5 with no error,
and the following execution of the cell with source x yields result 2,
the value the context still binds to x; the execution context persists
across the runs. -/
theorem context_persists_across_cells :
    (executeCodeCell miniPy persistState 0).2.result = some (.pint 5)
    ∧ (executeCodeCell miniPy persistState 0).2.error = none
    ∧ (executeCodeCell miniPy (executeCodeCell miniPy persistState 0).1 1).2.result =
        some (.pint 2)
    ∧ ctxGet (executeCodeCell miniPy persistState 0).1.execution_context "x" =
        some (.pint 2) :=
  ⟨rfl, rfl, rfl, rfl⟩

/-! Claim C4: the user-variable snapshot. -/

/-- Counterexample to C4 as stated: a context binding one variable to an
object whose str raises makes get_user_variables raise (return an error)
instead of substituting a type-name placeholder, so the snapshot does not
never-raise. -/
theorem snapshot_raises_on_unprintable_value :
    exceptIsOk (get_user_variables [("x", PVal.pobj "Foo" none)]) = false := rfl

/-- Amended C4: get_user_variables excludes the reserved keys and renders
every kept value with str, but it raises exactly when some kept value
fails to render; there is no type-name fallback in it.  The fallback
lives in serialize_execution_context, which never raises but excludes no
key: it keeps every key and renders a failing value as the type-name
placeholder. -/
theorem get_user_variables_exclusion_and_raise (ctx : Ctx) :
    (exceptIsOk (get_user_variables ctx) =
      ctx.all fun kv => !keepKey kv.1 || (pyStr kv.2).isSome)
    ∧ (∀ m, get_user_variables ctx = Except.ok m →
        m.all (fun kv => keepKey kv.1) = true)
    ∧ (serialize_execution_context ctx).map Prod.fst = ctx.map Prod.fst
    ∧ ∀ k t, serialize_execution_context [(k, PVal.pobj t none)] =
        [(k, PVal.pstr ("<" ++ t ++ ">"))] := by
  refine ⟨?_, ?_, ?_, ?_⟩
  · induction ctx with
    | nil => rfl
    | cons kv rest ih =>
      obtain ⟨k, v⟩ := kv
      by_cases hk : keepKey k
      · cases hv : pyStr v with
        | none => simp [get_user_variables, hk, hv, exceptIsOk]
        | some s =>
          cases hr : get_user_variables rest with
          | ok m => simp [get_user_variables, hk, hv, hr, exceptIsOk] at ih ⊢; exact ih
          | error e => simp [get_user_variables, hk, hv, hr, exceptIsOk] at ih ⊢; exact ih
      · simp only [Bool.not_eq_true] at hk
        simp [get_user_variables, hk, ih]
  · induction ctx with
    | nil =>
      intro m hm
      simp [get_user_variables] at hm
      subst hm
      rfl
    | cons kv rest ih =>
      obtain ⟨k, v⟩ := kv
      intro m hm
      by_cases hk : keepKey k
      · cases hv : pyStr v with
        | none => simp [get_user_variables, hk, hv] at hm
        | some s =>
          cases hr : get_user_variables rest with
          | ok m2 =>
            simp [get_user_variables, hk, hv, hr] at hm
            rw [← hm]
            simp [List.all_cons, hk, ih m2 hr]
          | error e => simp [get_user_variables, hk, hv, hr] at hm
      · simp only [Bool.not_eq_true] at hk
        simp only [get_user_variables, hk, Bool.false_eq_true, if_false] at hm
        exact ih m hm
  · induction ctx with
    | nil => rfl
    | cons kv rest ih =>
      obtain ⟨k, v⟩ := kv
      simp [serialize_execution_context, ih]
  · intro k t
    rfl

/-- Witness for the amended C4 at a concrete context: the builtins key is
excluded, the kept value renders, the key survives the filter, and a
raising object renders through serialize_execution_context as its
placeholder. -/
theorem get_user_variables_exclusion_and_raise_witness :
    (exceptIsOk (get_user_variables
        [("__builtins__", PVal.pobj "module" none), ("y", PVal.pint 7)]) =
      [("__builtins__", PVal.pobj "module" none), ("y", PVal.pint 7)].all
        fun kv => !keepKey kv.1 || (pyStr kv.2).isSome)
    ∧ [("y", "7")].all (fun kv => keepKey kv.1) = true
    ∧ serialize_execution_context [("z", PVal.pobj "Foo" none)] =
        [("z", PVal.pstr "<Foo>")] := by
  refine ⟨(get_user_variables_exclusion_and_raise _).1, ?_, ?_⟩
  · exact (get_user_variables_exclusion_and_raise
      [("__builtins__", PVal.pobj "module" none), ("y", PVal.pint 7)]).2.1
      [("y", "7")] rfl
  · exact (get_user_variables_exclusion_and_raise []).2.2.2 "z" "Foo"

/-! Claim C9: serialization is validated before any write. -/

/-- Claim C9: when the assembled notebook structure fails JSON
serialization, saveNotebook returns a structured failure response and the
filesystem is returned exactly as it was: no file is created, replaced or
partially written. -/
theorem saveNotebook_no_write_on_serialization_failure
    (st : NotebookState) (fs : FileSys) (filename : String)
    (uv : List (String × String))
    (huv : get_user_variables st.execution_context = Except.ok uv)
    (hser : serializable (buildNotebookData st uv) = false) :
    saveNotebook st fs filename =
      (⟨false, "", "Failed to serialize notebook data to JSON"⟩, fs) := by
  simp [saveNotebook, huv, hser]

/-- The notebook whose only cell carries a non-serializable metadata
object, driving saveNotebook into the serialization failure branch. -/
def badMetaState : NotebookState :=
  ⟨[{ cell_type := "code", metadata := .pobj "Foo" none, source := "x",
      execution_count := none, outputs := [] }], [], 1⟩

/-- Witness for C9 at the concrete non-serializable notebook: the save
fails and a pre-populated filesystem is untouched. -/
theorem saveNotebook_no_write_on_serialization_failure_witness :
    saveNotebook badMetaState [("/app/notebooks/old.ipynb", PVal.pnone)] "nb" =
      (⟨false, "", "Failed to serialize notebook data to JSON"⟩,
       [("/app/notebooks/old.ipynb", PVal.pnone)]) :=
  saveNotebook_no_write_on_serialization_failure badMetaState
    [("/app/notebooks/old.ipynb", PVal.pnone)] "nb" [] rfl rfl

/-! Claim C10: stored sources are stripped. -/

/-- Reading a valid index returns the source of the cell stored there,
whatever its type. -/
theorem getCellContent_content (st : NotebookState) (i : Nat)
    (h : i < st.history.length) :
    (getCellContent st (i : Int)).content = (st.history.getD i emptyCell).source := by
  unfold getCellContent
  have h1 : ¬ (((i : Int) < 0 || (st.history.length : Int) ≤ (i : Int)) = true) := by
    simp
    omega
  rw [if_neg h1]
  have h2 : ((i : Int)).toNat = i := Int.toNat_ofNat i
  rw [h2]
  dsimp only
  split <;> rfl

/-- Reading just past the end of a list extended by one element returns
the new element. -/
theorem getD_concat (l : List Cell) (c d : Cell) : (l ++ [c]).getD l.length d = c := by
  rw [List.getD_eq_getElem?_getD, List.getElem?_concat_length]
  rfl

/-- Inserting grows the length by one. -/
theorem listInsert_length {a : Type} (n : Nat) (x : a) (l : List a) :
    (listInsert n x l).length = l.length + 1 := by
  induction l generalizing n with
  | nil => cases n <;> rfl
  | cons y ys ih =>
    cases n with
    | zero => rfl
    | succ m => simp [listInsert, ih]

/-- Reading the insertion position returns the inserted element. -/
theorem listInsert_getD {a : Type} (n : Nat) (x : a) (l : List a) (d : a)
    (h : n ≤ l.length) : (listInsert n x l).getD n d = x := by
  induction l generalizing n with
  | nil =>
    have : n = 0 := by simpa using h
    subst this
    rfl
  | cons y ys ih =>
    cases n with
    | zero => rfl
    | succ m =>
      show (listInsert m x ys).getD m d = x
      exact ih m (by simpa using h)

/-- Reading an updated position returns the new element. -/
theorem getD_set_self (l : List Cell) (i : Nat) (c : Cell) (d : Cell)
    (h : i < l.length) : (l.set i c).getD i d = c := by
  rw [List.getD_eq_getElem?_getD]
  simp [List.getElem?_set_self', h]

/-- Claim C10: every successful createMarkdownCell, createCodeCell,
insertMarkdownCell, insertCodeCell or updateCell stores the given content
with surrounding whitespace stripped as the cell source, so reading the
cell back through getCellContent returns the stripped text. -/
theorem stored_source_is_stripped (st : NotebookState) (content : String) (index : Int)
    (hc : ¬ (pyStrip content = "")) :
    ((getCellContent (createMarkdownCell st content).1 (st.history.length : Int)).content
        = pyStrip content)
    ∧ ((getCellContent (createCodeCell st content).1 (st.history.length : Int)).content
        = pyStrip content)
    ∧ (0 ≤ index → index ≤ (st.history.length : Int) →
        (getCellContent (insertMarkdownCell st content index).1 index).content
            = pyStrip content
        ∧ (getCellContent (insertCodeCell st content index).1 index).content
            = pyStrip content)
    ∧ (0 ≤ index → index < (st.history.length : Int) →
        (getCellContent (updateCell st index content).1 index).content
            = pyStrip content) := by
  refine ⟨?_, ?_, fun h0 hle => ⟨?_, ?_⟩, fun h0 hlt => ?_⟩
  · unfold createMarkdownCell
    rw [if_neg hc]
    rw [getCellContent_content _ st.history.length (by simp)]
    show ((st.history ++ [MarkdownCell (pyStrip content)]).getD st.history.length
        emptyCell).source = pyStrip content
    rw [getD_concat]
    rfl
  · unfold createCodeCell
    rw [if_neg hc]
    rw [getCellContent_content _ st.history.length (by simp)]
    show ((st.history ++ [CodeCell (pyStrip content) none]).getD st.history.length
        emptyCell).source = pyStrip content
    rw [getD_concat]
    rfl
  · unfold insertMarkdownCell
    rw [if_neg hc]
    have hcond : ¬ ((index < 0 || (st.history.length : Int) < index) = true) := by
      simp
      omega
    rw [if_neg hcond]
    have hieq : ((index.toNat : Nat) : Int) = index := Int.toNat_of_nonneg h0
    rw [← hieq]
    rw [getCellContent_content _ index.toNat (by rw [listInsert_length]; omega)]
    show ((listInsert index.toNat (MarkdownCell (pyStrip content)) st.history).getD
        index.toNat emptyCell).source = pyStrip content
    rw [listInsert_getD _ _ _ _ (by omega)]
    rfl
  · unfold insertCodeCell
    rw [if_neg hc]
    have hcond : ¬ ((index < 0 || (st.history.length : Int) < index) = true) := by
      simp
      omega
    rw [if_neg hcond]
    have hieq : ((index.toNat : Nat) : Int) = index := Int.toNat_of_nonneg h0
    rw [← hieq]
    rw [getCellContent_content _ index.toNat (by rw [listInsert_length]; omega)]
    show ((listInsert index.toNat (CodeCell (pyStrip content) none) st.history).getD
        index.toNat emptyCell).source = pyStrip content
    rw [listInsert_getD _ _ _ _ (by omega)]
    rfl
  · unfold updateCell
    have hcond : ¬ ((index < 0 || (st.history.length : Int) ≤ index) = true) := by
      simp
      omega
    rw [if_neg hcond, if_neg hc]
    have hieq : ((index.toNat : Nat) : Int) = index := Int.toNat_of_nonneg h0
    rw [← hieq]
    rw [getCellContent_content _ index.toNat (by simp; omega)]
    show ((st.history.set index.toNat
        { st.history.getD index.toNat emptyCell with source := pyStrip content }).getD
        index.toNat emptyCell).source = pyStrip content
    rw [getD_set_self _ _ _ _ (by omega)]

/-- The one-cell notebook the C10 witness works on. -/
def oneCellState : NotebookState := ⟨[MarkdownCell "a"], [], 1⟩

/-- Witness for C10 at concrete inputs: content with surrounding blanks is
stored stripped by all five mutators. -/
theorem stored_source_is_stripped_witness :
    (getCellContent (createMarkdownCell oneCellState " hi ").1 1).content = "hi"
    ∧ (getCellContent (createCodeCell oneCellState " hi ").1 1).content = "hi"
    ∧ (getCellContent (insertMarkdownCell oneCellState " hi " 0).1 0).content = "hi"
    ∧ (getCellContent (insertCodeCell oneCellState " hi " 0).1 0).content = "hi"
    ∧ (getCellContent (updateCell oneCellState 0 " hi ").1 0).content = "hi" := by
  have h := stored_source_is_stripped oneCellState " hi " 0 (by decide)
  exact ⟨h.1, h.2.1, (h.2.2.1 (by decide) (by decide)).1,
    (h.2.2.1 (by decide) (by decide)).2, h.2.2.2 (by decide) (by decide)⟩

/-! Claim C1: the REPL evaluation rule of run_cell. -/

/-- Splitting a string on newlines yields at least one line. -/
theorem pySplitNl_ne_nil (s : String) : pySplitNl s ≠ [] := by
  unfold pySplitNl pySplitChar
  intro h
  exact splitOnChar_ne_nil '\n' s.data (List.map_eq_nil_iff.mp h)

/-- Claim C1: run_cell implements the REPL rule the specification states.
Under the Python fact that executing an empty statement block is a no-op
(the hE hypothesis about the external interpreter), run_cell coincides
with runCellSpec, the direct transcription of the specification: when the
last line compiles as an expression all preceding lines are executed as
statements against the shared context and then the last line is evaluated
as an expression with its value captured as the result; otherwise the
entire source is executed as statements and the result stays null. -/
theorem run_cell_repl_rule (I : Interp) (code : String) (context : Ctx)
    (hE : ∀ c, I.execStmts "" c = (c, "", none)) :
    run_cell I code context = runCellSpec I code context := by
  unfold run_cell runCellSpec
  by_cases h0 : pyStrip code = ""
  · rw [if_pos h0, if_pos h0]
  · rw [if_neg h0, if_neg h0]
    rcases hsplit : pySplitNl (pyStrip code) with _ | ⟨l, ls⟩
    · exact absurd hsplit (pySplitNl_ne_nil _)
    · simp only [hsplit]
      by_cases hcomp : I.compilesAsExpr ((l :: ls).getLastD "") = true
      · rw [if_pos hcomp, if_pos hcomp]
        cases ls with
        | nil =>
          have hgt : ¬ ([l].length > 1) := by simp
          rw [if_neg hgt]
          have hj : pyJoinNl ([l].dropLast) = "" := rfl
          rw [hj, hE context]
        | cons l2 t =>
          have hgt : (l :: l2 :: t).length > 1 := by simp
          rw [if_pos hgt]
          rcases hx : I.execStmts (pyJoinNl ((l :: l2 :: t).dropLast)) context with ⟨c1, o1, e1⟩
          cases e1 <;> rfl
      · rw [if_neg hcomp, if_neg hcomp]

/-- Witness for C1: the MiniPy interpreter satisfies the empty-exec
hypothesis, and run_cell agrees with the specification transcription on
the concrete two-line source of the claims. -/
theorem run_cell_repl_rule_witness :
    run_cell miniPy "x = 2\nx + 3" [] = runCellSpec miniPy "x = 2\nx + 3" [] :=
  run_cell_repl_rule miniPy "x = 2\nx + 3" [] (fun _ => rfl)

/-! Claim C2: execution counts across executeCell and executeAll. -/

/-- The consecutive integers from g, n of them. -/
def intRange (g : Int) : Nat → List Int
  | 0 => []
  | n + 1 => g :: intRange (g + 1) n

/-- The length of an integer range. -/
theorem intRange_length (g : Int) (n : Nat) : (intRange g n).length = n := by
  induction n generalizing g with
  | zero => rfl
  | succ m ih => simp [intRange, ih]

/-- Two adjacent ranges concatenate to one. -/
theorem intRange_append (g : Int) (a b : Nat) :
    intRange g a ++ intRange (g + a) b = intRange g (a + b) := by
  induction a generalizing g with
  | zero => simp [intRange]
  | succ m ih =>
    have h1 : g + ((m : Int) + 1) = (g + 1) + m := by ring
    show g :: (intRange (g + 1) m ++ intRange (g + (m + 1 : Nat)) b) = intRange g (m + 1 + b)
    have h2 : ((m + 1 : Nat) : Int) = (m : Int) + 1 := by push_cast; ring
    rw [h2, h1, ih]
    have h3 : m + 1 + b = (m + b) + 1 := by omega
    rw [h3]
    rfl

/-- Every member of a range is bounded by its endpoints. -/
theorem mem_intRange {x : Int} {g : Int} {n : Nat} (h : x ∈ intRange g n) :
    g ≤ x ∧ x < g + n := by
  induction n generalizing g with
  | zero => simp [intRange] at h
  | succ m ih =>
    simp only [intRange, List.mem_cons] at h
    rcases h with h | h
    · subst h
      constructor
      · omega
      · push_cast
        omega
    · have := ih h
      constructor
      · omega
      · push_cast at this ⊢
        omega

/-- A range is strictly increasing. -/
theorem intRange_chain (g : Int) (n : Nat) : (intRange g n).Chain' (· < ·) := by
  induction n generalizing g with
  | zero => simp [intRange]
  | succ m ih =>
    rw [intRange, List.chain'_cons']
    refine ⟨?_, ih (g + 1)⟩
    intro y hy
    have hmem : y ∈ intRange (g + 1) m := List.mem_of_mem_head? hy
    have := mem_intRange hmem
    omega

/-- No value repeats inside a range. -/
theorem intRange_pairwise_ne (g : Int) (n : Nat) :
    (intRange g n).Pairwise (· ≠ ·) := by
  induction n generalizing g with
  | zero => simp [intRange]
  | succ m ih =>
    rw [intRange, List.pairwise_cons]
    refine ⟨?_, ih (g + 1)⟩
    intro y hy
    have := mem_intRange hy
    omega

/-- One counter-consuming step of executeCodeCell: the counts handed out
are exactly the consecutive integers starting at the old counter, and the
counter advances by their number. -/
theorem executeCodeCellT_counts (I : Interp) (st : NotebookState) (index : Int) :
    (executeCodeCellT I st index).2.2 =
      intRange st.global_execution_count (executeCodeCellT I st index).2.2.length
    ∧ (executeCodeCellT I st index).1.global_execution_count =
      st.global_execution_count + ((executeCodeCellT I st index).2.2.length : Int) := by
  unfold executeCodeCellT
  split
  · simp [intRange]
  · dsimp only
    split
    · simp [intRange]
    · rcases h1 : run_cell I (st.history.getD index.toNat emptyCell).source
          st.execution_context with ⟨ctx1, rr⟩
      simp only [get_next_execution_count]
      dsimp only
      cases hb : buildOutputs rr st.global_execution_count <;>
        simp [intRange, hb]

/-- Prepending the counter to a batch of counts taken from the next
counter value forms the range from the counter. -/
theorem cons_count_glue {g : Int} {counts : List Int}
    (h : counts = intRange (g + 1) counts.length) :
    g :: counts = intRange g (g :: counts).length := by
  rw [List.length_cons]
  show _ = g :: intRange (g + 1) counts.length
  rw [← h]

/-- The loop of executeAllCells hands out consecutive counts from the old
counter and advances the counter by their number, in every branch
(markdown skip, per-cell error, and the aborting rendering failure). -/
theorem execAllLoop_counts (I : Interp) :
    ∀ (idxs : List Nat) (st : NotebookState),
      (execAllLoop I idxs st).2.2.1 =
        intRange st.global_execution_count (execAllLoop I idxs st).2.2.1.length
      ∧ (execAllLoop I idxs st).1.global_execution_count =
        st.global_execution_count + ((execAllLoop I idxs st).2.2.1.length : Int)
  | [], st => by simp [execAllLoop, intRange]
  | i :: rest, st => by
    unfold execAllLoop
    dsimp only
    split
    case isTrue hcode =>
      rcases h1 : run_cell I (st.history.getD i emptyCell).source
          st.execution_context with ⟨ctx1, rr⟩
      simp only [get_next_execution_count]
      cases hb : buildOutputs rr st.global_execution_count with
      | none => simp [intRange]
      | some outs =>
        dsimp only
        constructor
        · exact cons_count_glue (execAllLoop_counts I rest _).1
        · rw [List.length_cons, (execAllLoop_counts I rest _).2]
          dsimp only
          push_cast
          ring
    case isFalse hcode => exact execAllLoop_counts I rest st

/-- executeAllCells hands out consecutive counts from the old counter. -/
theorem executeAllCellsT_counts (I : Interp) (st : NotebookState) :
    (executeAllCellsT I st).2.2 =
      intRange st.global_execution_count (executeAllCellsT I st).2.2.length
    ∧ (executeAllCellsT I st).1.global_execution_count =
      st.global_execution_count + ((executeAllCellsT I st).2.2.length : Int) := by
  unfold executeAllCellsT
  have h := execAllLoop_counts I (List.range st.history.length) st
  rcases hl : execAllLoop I (List.range st.history.length) st with ⟨st1, res, counts, ok⟩
  rw [hl] at h
  simp only at h
  cases ok <;> simpa using h

/-- The operations of an execution sequence: executeCell at an index, or
executeAll. -/
inductive ExecOp where
  | cell (index : Int)
  | all

/-- Run a sequence of execution operations from a state, collecting every
execution count handed out along the way. -/
def runOps (I : Interp) : List ExecOp → NotebookState → NotebookState × List Int
  | [], st => (st, [])
  | ExecOp.cell i :: rest, st =>
    ((runOps I rest (executeCodeCellT I st i).1).1,
     (executeCodeCellT I st i).2.2 ++ (runOps I rest (executeCodeCellT I st i).1).2)
  | ExecOp.all :: rest, st =>
    ((runOps I rest (executeAllCellsT I st).1).1,
     (executeAllCellsT I st).2.2 ++ (runOps I rest (executeAllCellsT I st).1).2)

/-- Gluing two consecutive count batches: if the first batch is the range
from g and leaves the counter at g plus its length, and the second batch
is the range from there, the concatenation is the range from g. -/
theorem intRange_glue {g h1 : Int} {a b : List Int}
    (ha : a = intRange g a.length) (hg : h1 = g + (a.length : Int))
    (hb : b = intRange h1 b.length) :
    a ++ b = intRange g (a ++ b).length := by
  rw [List.length_append]
  conv_lhs => rw [ha, hb, hg]
  exact intRange_append g a.length b.length

/-- Any sequence of execution operations hands out exactly the consecutive
counts from the starting counter. -/
theorem runOps_counts (I : Interp) :
    ∀ (ops : List ExecOp) (st : NotebookState),
      (runOps I ops st).2 =
        intRange st.global_execution_count (runOps I ops st).2.length
      ∧ (runOps I ops st).1.global_execution_count =
        st.global_execution_count + ((runOps I ops st).2.length : Int)
  | [], st => by simp [runOps, intRange]
  | ExecOp.cell i :: rest, st => by
    have hstep := executeCodeCellT_counts I st i
    have ih := runOps_counts I rest (executeCodeCellT I st i).1
    show ((executeCodeCellT I st i).2.2 ++
          (runOps I rest (executeCodeCellT I st i).1).2) =
        intRange st.global_execution_count
          ((executeCodeCellT I st i).2.2 ++
            (runOps I rest (executeCodeCellT I st i).1).2).length
      ∧ (runOps I rest (executeCodeCellT I st i).1).1.global_execution_count =
        st.global_execution_count +
          (((executeCodeCellT I st i).2.2 ++
            (runOps I rest (executeCodeCellT I st i).1).2).length : Int)
    refine ⟨intRange_glue hstep.1 hstep.2 ih.1, ?_⟩
    rw [ih.2, hstep.2, List.length_append]
    push_cast
    ring
  | ExecOp.all :: rest, st => by
    have hstep := executeAllCellsT_counts I st
    have ih := runOps_counts I rest (executeAllCellsT I st).1
    show ((executeAllCellsT I st).2.2 ++
          (runOps I rest (executeAllCellsT I st).1).2) =
        intRange st.global_execution_count
          ((executeAllCellsT I st).2.2 ++
            (runOps I rest (executeAllCellsT I st).1).2).length
      ∧ (runOps I rest (executeAllCellsT I st).1).1.global_execution_count =
        st.global_execution_count +
          (((executeAllCellsT I st).2.2 ++
            (runOps I rest (executeAllCellsT I st).1).2).length : Int)
    refine ⟨intRange_glue hstep.1 hstep.2 ih.1, ?_⟩
    rw [ih.2, hstep.2, List.length_append]
    push_cast
    ring

/-- Claim C2: across any sequence of executeCell and executeAll calls
(with no restart, clear or load in between), the counts handed out are
exactly the consecutive integers starting at the current global counter,
hence strictly increasing and pairwise distinct (no count is ever reused,
even across different cells), and the global counter advances by the
number of cells executed, never decreasing. -/
theorem execution_counts_strictly_increasing (I : Interp) (ops : List ExecOp)
    (st : NotebookState) :
    (runOps I ops st).2 =
      intRange st.global_execution_count (runOps I ops st).2.length
    ∧ (runOps I ops st).1.global_execution_count =
      st.global_execution_count + ((runOps I ops st).2.length : Int)
    ∧ (runOps I ops st).2.Chain' (· < ·)
    ∧ (runOps I ops st).2.Pairwise (· ≠ ·)
    ∧ st.global_execution_count ≤ (runOps I ops st).1.global_execution_count := by
  have h := runOps_counts I ops st
  refine ⟨h.1, h.2, ?_, ?_, ?_⟩
  · rw [h.1]
    exact intRange_chain _ _
  · rw [h.1]
    exact intRange_pairwise_ne _ _
  · rw [h.2]
    omega

/-! Claim C3: the save and load round trip. -/

/-- Well-formedness of a cell as the two Python dataclasses guarantee it:
every cell is a code cell or a markdown cell, and a markdown cell carries
no execution bookkeeping (the MarkdownCell dataclass has no such
fields). -/
def wfCell (c : Cell) : Prop :=
  c.cell_type = "code"
  ∨ (c.cell_type = "markdown" ∧ c.execution_count = none ∧ c.outputs = [])

/-- Well-formedness of a state: every cell of the history is one of the
two dataclasses. -/
def wfState (st : NotebookState) : Prop := ∀ c ∈ st.history, wfCell c

/-- Computation of decodeCell on a code-cell record of the file format. -/
theorem decodeCell_code (meta : PVal) (srcv : PVal) (ecv : PVal) (outs : List PVal) :
    decodeCell (.pdict [("cell_type", .pstr "code"), ("metadata", meta),
      ("source", srcv), ("execution_count", ecv), ("outputs", .plist outs)]) =
    some { cell_type := "code", metadata := meta, source := decodeSource srcv,
           execution_count := decodeExecCount (some ecv), outputs := outs } := rfl

/-- Computation of decodeCell on a markdown-cell record of the file
format. -/
theorem decodeCell_markdown (meta : PVal) (srcv : PVal) :
    decodeCell (.pdict [("cell_type", .pstr "markdown"), ("metadata", meta),
      ("source", srcv)]) =
    some { cell_type := "markdown", metadata := meta, source := decodeSource srcv,
           execution_count := none, outputs := [] } := rfl

/-- Computation of encodeCell on a code cell. -/
theorem encodeCell_code (meta : PVal) (src : String) (ec : Option Int)
    (outs : List PVal) :
    encodeCell ⟨"code", meta, src, ec, outs⟩ =
      .pdict [("cell_type", .pstr "code"), ("metadata", meta),
        ("source", .plist ((if src = "" then [""] else pySplitNl src).map .pstr)),
        ("execution_count", encodeExecCount ec), ("outputs", .plist outs)] := rfl

/-- Computation of encodeCell on a markdown cell. -/
theorem encodeCell_markdown (meta : PVal) (src : String) (ec : Option Int)
    (outs : List PVal) :
    encodeCell ⟨"markdown", meta, src, ec, outs⟩ =
      .pdict [("cell_type", .pstr "markdown"), ("metadata", meta),
        ("source", .plist ((if src = "" then [""] else pySplitNl src).map .pstr))] := rfl

/-- Loading the saved source representation restores the source: the
source is stored as its list of lines (one empty line for an empty
source) and joining them with newlines is the inverse. -/
theorem decodeSource_encodeSource (src : String) :
    decodeSource (.plist ((if src = "" then [""] else pySplitNl src).map .pstr)) = src := by
  by_cases hs : src = ""
  · subst hs
    rfl
  · rw [if_neg hs]
    show pyJoinNl (((pySplitNl src).map PVal.pstr).map pvalAsStr) = src
    rw [List.map_map]
    have h1 : (pySplitNl src).map (pvalAsStr ∘ PVal.pstr) =
        (pySplitNl src).map (fun l => l) := rfl
    rw [h1, List.map_id']
    exact pyJoinNl_pySplitNl src

/-- Decoding inverts encoding on every well-formed cell. -/
theorem decode_encode (c : Cell) (h : wfCell c) : decodeCell (encodeCell c) = some c := by
  obtain ⟨ct, meta, src, ec, outs⟩ := c
  unfold wfCell at h
  simp only at h
  have hec : decodeExecCount (some (encodeExecCount ec)) = ec := by
    cases ec <;> rfl
  rcases h with h1 | ⟨h1, h2, h3⟩
  · subst h1
    rw [encodeCell_code, decodeCell_code, decodeSource_encodeSource, hec]
  · subst h1
    subst h2
    subst h3
    rw [encodeCell_markdown, decodeCell_markdown, decodeSource_encodeSource]

/-- Decoding the encoded history restores it cell for cell. -/
theorem filterMap_decode_encode (l : List Cell) (h : ∀ c ∈ l, wfCell c) :
    (l.map encodeCell).filterMap decodeCell = l := by
  induction l with
  | nil => rfl
  | cons c t ih =>
    have h1 := decode_encode c (h c (List.mem_cons_self c t))
    have h2 := ih (fun c2 hc2 => h c2 (List.mem_cons_of_mem c hc2))
    simp [List.filterMap_cons, h1, h2]

/-- Reading back a freshly written file returns what was written. -/
theorem fsRead_fsWrite (fs : FileSys) (p : String) (v : PVal) :
    fsRead (fsWrite fs p v) p = some v := by
  induction fs with
  | nil => simp [fsWrite, fsRead]
  | cons kv rest ih =>
    obtain ⟨q, w⟩ := kv
    by_cases h : q = p
    · subst h
      simp [fsWrite, fsRead]
    · simp [fsWrite, fsRead, h, ih]

/-- Paths under the notebooks directory contain a slash, so loadNotebook
takes them as they are. -/
theorem strHasChar_slash (x : String) :
    strHasChar '/' ("/app/notebooks/" ++ x) = true := by
  unfold strHasChar
  rw [String.data_append, List.any_append]
  have h1 : "/app/notebooks/".data.any (fun c => decide (c = '/')) = true := rfl
  rw [h1]
  rfl

/-- The successful branch of saveNotebook: the notebook structure is
written at the notebooks path and reported. -/
theorem saveNotebook_success (st : NotebookState) (fs : FileSys) (filename : String)
    (uv : List (String × String))
    (huv : get_user_variables st.execution_context = Except.ok uv)
    (hser : serializable (buildNotebookData st uv) = true) :
    saveNotebook st fs filename =
      (⟨true, "/app/notebooks/" ++ ensureIpynb filename,
        "Notebook saved successfully to " ++ ("/app/notebooks/" ++ ensureIpynb filename)⟩,
       fsWrite fs ("/app/notebooks/" ++ ensureIpynb filename)
         (buildNotebookData st uv)) := by
  simp [saveNotebook, huv, hser]

/-- Loading a file holding a saved notebook structure restores the saved
history and counter (the execution context is untouched: the saved file
stores user variables under a different key that load does not read). -/
theorem loadNotebook_of_saved (stL : NotebookState) (fs : FileSys) (path : String)
    (st : NotebookState) (uv : List (String × String))
    (hslash : strHasChar '/' path = true)
    (hread : fsRead fs path = some (buildNotebookData st uv))
    (hwf : wfState st) :
    loadNotebook stL fs path =
      ({ history := st.history, execution_context := stL.execution_context,
         global_execution_count := st.global_execution_count },
       ⟨true, (st.history.length : Int),
        "Notebook loaded successfully. " ++ pyIntRepr (st.history.length : Int) ++
          " cells loaded from " ++ path⟩) := by
  unfold loadNotebook
  rw [if_pos hslash]
  dsimp only
  rw [hread]
  simp only [buildNotebookData]
  have h1 : pdictGet "execution_context" (buildNotebookKVs st uv) = none := rfl
  have h2 : pdictGet "global_execution_count" (buildNotebookKVs st uv) =
      some (.pint st.global_execution_count) := rfl
  have h3 : pdictGetD (buildNotebookKVs st uv) "cells" (.plist []) =
      .plist (st.history.map encodeCell) := rfl
  rw [h1, h2, h3]
  dsimp only
  rw [filterMap_decode_encode st.history hwf]

/-- Saving and then loading the produced file, as one operation. -/
def savedThenLoaded (st stL : NotebookState) (fs : FileSys) (filename : String) :
    NotebookState × LoadNotebookResponse :=
  loadNotebook stL (saveNotebook st fs filename).2 (saveNotebook st fs filename).1.filepath

/-- Claim C3: whenever saveNotebook succeeds, loading the produced file
into any state reproduces the saved history exactly, cell for cell (cell
types, sources, execution counts, outputs and metadata all round-trip,
the source passing through its split into lines and the rejoin with
newlines) together with the saved global execution count, and the load
reports success. -/
theorem save_load_round_trip (st stL : NotebookState) (fs : FileSys) (filename : String)
    (hwf : wfState st)
    (hsaved : (saveNotebook st fs filename).1.saved = true) :
    (savedThenLoaded st stL fs filename).1.history = st.history
    ∧ (savedThenLoaded st stL fs filename).1.global_execution_count =
        st.global_execution_count
    ∧ (savedThenLoaded st stL fs filename).2.loaded = true := by
  cases huv : get_user_variables st.execution_context with
  | error e => simp [saveNotebook, huv] at hsaved
  | ok uv =>
    cases hser : serializable (buildNotebookData st uv) with
    | false => simp [saveNotebook, huv, hser] at hsaved
    | true =>
      have hs := saveNotebook_success st fs filename uv huv hser
      have hl := loadNotebook_of_saved stL
        (fsWrite fs ("/app/notebooks/" ++ ensureIpynb filename) (buildNotebookData st uv))
        ("/app/notebooks/" ++ ensureIpynb filename) st uv
        (strHasChar_slash _) (fsRead_fsWrite _ _ _) hwf
      unfold savedThenLoaded
      rw [hs]
      dsimp only
      rw [hl]
      exact ⟨rfl, rfl, rfl⟩

/-- The two-cell notebook (one markdown, one executed code cell, a bound
user variable) on which the round trip is witnessed. -/
def roundTripState : NotebookState :=
  ⟨[MarkdownCell "hello\nworld", CodeCell "x = 2\nx + 3" (some 1)],
   [("x", .pint 2)], 2⟩

/-- Witness for C3 at the concrete notebook: saving then loading restores
the history and the counter. -/
theorem save_load_round_trip_witness :
    (savedThenLoaded roundTripState ⟨[], [], 1⟩ [] "nb").1.history =
      roundTripState.history
    ∧ (savedThenLoaded roundTripState ⟨[], [], 1⟩ [] "nb").1.global_execution_count =
        roundTripState.global_execution_count
    ∧ (savedThenLoaded roundTripState ⟨[], [], 1⟩ [] "nb").2.loaded = true :=
  save_load_round_trip roundTripState ⟨[], [], 1⟩ [] "nb"
    (by
      intro c hc
      simp only [roundTripState, List.mem_cons, List.not_mem_nil, or_false] at hc
      rcases hc with hc | hc
      · subst hc
        exact Or.inr ⟨rfl, rfl, rfl⟩
      · subst hc
        exact Or.inl rfl)
    rfl
